import Mathlib

/-!
Verification development for the CoreMQ message broker (a pure-Python pub/sub
broker).  The definitions below are a shallow embedding of the broker's code:
`coremq_common.py` (framing codec) and `aio_server.py` (connection actor,
dispatcher, history ring, fan-out engine, replication handshake).  Python
strings are modelled as Lean `String`/`List Char`, JSON values as the
inductive `PyVal`, dictionaries as insertion-ordered association lists, and
exceptions as explicit error values.
-/

namespace CoreMQ

/-- A Python/JSON value as it appears in broker messages.  `json.loads`
produces exactly these shapes.  Floats are not needed by any modelled code
path (the `coremq_sent` wall-clock stamp is threaded as an opaque `pyInt`
tick). -/
inductive PyVal where
  | pyNone
  | pyBool (b : Bool)
  | pyInt (n : Int)
  | pyStr (s : String)
  | pyList (xs : List PyVal)
  | pyDict (xs : List (String × PyVal))
deriving Repr

mutual

/-- Python `==` on JSON values (structural equality). -/
def PyVal.beq : PyVal → PyVal → Bool
  | .pyNone, .pyNone => true
  | .pyBool a, .pyBool b => a = b
  | .pyInt a, .pyInt b => a = b
  | .pyStr a, .pyStr b => a = b
  | .pyList xs, .pyList ys => PyVal.beqList xs ys
  | .pyDict xs, .pyDict ys => PyVal.beqDict xs ys
  | _, _ => false

def PyVal.beqList : List PyVal → List PyVal → Bool
  | [], [] => true
  | x :: xs, y :: ys => PyVal.beq x y && PyVal.beqList xs ys
  | _, _ => false

def PyVal.beqDict : List (String × PyVal) → List (String × PyVal) → Bool
  | [], [] => true
  | (k, x) :: xs, (k', y) :: ys => k = k' && PyVal.beq x y && PyVal.beqDict xs ys
  | _, _ => false

end

mutual

theorem PyVal.beq_refl : ∀ a : PyVal, PyVal.beq a a = true
  | .pyNone => rfl
  | .pyBool b => by simp [PyVal.beq]
  | .pyInt n => by simp [PyVal.beq]
  | .pyStr s => by simp [PyVal.beq]
  | .pyList xs => by simpa [PyVal.beq] using PyVal.beqList_refl xs
  | .pyDict xs => by simpa [PyVal.beq] using PyVal.beqDict_refl xs

theorem PyVal.beqList_refl : ∀ xs : List PyVal, PyVal.beqList xs xs = true
  | [] => rfl
  | x :: xs => by simp [PyVal.beqList, PyVal.beq_refl x, PyVal.beqList_refl xs]

theorem PyVal.beqDict_refl : ∀ xs : List (String × PyVal), PyVal.beqDict xs xs = true
  | [] => rfl
  | (k, v) :: xs => by simp [PyVal.beqDict, PyVal.beq_refl v, PyVal.beqDict_refl xs]

end

mutual

theorem PyVal.eq_of_beq : ∀ a b : PyVal, PyVal.beq a b = true → a = b
  | .pyNone, b, h => by cases b <;> simp_all [PyVal.beq]
  | .pyBool a, b, h => by cases b <;> simp_all [PyVal.beq]
  | .pyInt a, b, h => by cases b <;> simp_all [PyVal.beq]
  | .pyStr a, b, h => by cases b <;> simp_all [PyVal.beq]
  | .pyList xs, b, h => by
      cases b <;> simp_all [PyVal.beq]
      case pyList ys => exact PyVal.eqList_of_beq xs ys h
  | .pyDict xs, b, h => by
      cases b <;> simp_all [PyVal.beq]
      case pyDict ys => exact PyVal.eqDict_of_beq xs ys h

theorem PyVal.eqList_of_beq : ∀ xs ys : List PyVal, PyVal.beqList xs ys = true → xs = ys
  | [], [], _ => rfl
  | [], _ :: _, h => by simp [PyVal.beqList] at h
  | _ :: _, [], h => by simp [PyVal.beqList] at h
  | x :: xs, y :: ys, h => by
      simp only [PyVal.beqList, Bool.and_eq_true] at h
      rw [PyVal.eq_of_beq x y h.1, PyVal.eqList_of_beq xs ys h.2]

theorem PyVal.eqDict_of_beq :
    ∀ xs ys : List (String × PyVal), PyVal.beqDict xs ys = true → xs = ys
  | [], [], _ => rfl
  | [], _ :: _, h => by simp [PyVal.beqDict] at h
  | _ :: _, [], h => by simp [PyVal.beqDict] at h
  | (k, x) :: xs, (k', y) :: ys, h => by
      simp only [PyVal.beqDict, Bool.and_eq_true, decide_eq_true_eq] at h
      rw [h.1.1, PyVal.eq_of_beq x y h.1.2, PyVal.eqDict_of_beq xs ys h.2]

end

instance : DecidableEq PyVal := fun a b =>
  decidable_of_iff (PyVal.beq a b = true)
    ⟨PyVal.eq_of_beq a b, fun h => h ▸ PyVal.beq_refl a⟩

/-- A message is a JSON object: an insertion-ordered dictionary with string
keys, as produced by `json.loads` on a frame payload. -/
def Msg := List (String × PyVal)
deriving DecidableEq, Repr

/-- Python `d[k]` / `d.get(k)`: the binding of `k` (keys are unique in a real
dict; lookup takes the first match). -/
def Msg.get? (m : Msg) (k : String) : Option PyVal :=
  match m with
  | [] => none
  | (k', v) :: rest => if k' = k then some v else Msg.get? rest k

/-- Python `k in d`. -/
def Msg.hasKey (m : Msg) (k : String) : Bool :=
  (m.get? k).isSome

/-- Python `d[k] = v`: replace in place when the key exists (keeping its
insertion position), append at the end otherwise. -/
def Msg.set (m : Msg) (k : String) (v : PyVal) : Msg :=
  match m with
  | [] => [(k, v)]
  | (k', v') :: rest =>
      if k' = k then (k', v) :: rest else (k', v') :: Msg.set rest k v

/-- Python `del d[k]` (callers guard with `in`; a no-op when absent). -/
def Msg.del (m : Msg) (k : String) : Msg :=
  match m with
  | [] => []
  | (k', v') :: rest => if k' = k then rest else (k', v') :: Msg.del rest k

theorem Msg.get?_set_same (m : Msg) (k : String) (v : PyVal) :
    (m.set k v).get? k = some v := by
  induction m with
  | nil => simp [Msg.set, Msg.get?]
  | cons hd tl ih =>
      obtain ⟨k', v'⟩ := hd
      by_cases h : k' = k <;> simp [Msg.set, Msg.get?, h, ih]

theorem Msg.get?_set_ne (m : Msg) (k k' : String) (v : PyVal) (h : k ≠ k') :
    (m.set k v).get? k' = m.get? k' := by
  induction m with
  | nil => simp [Msg.set, Msg.get?, h]
  | cons hd tl ih =>
      obtain ⟨k₀, v₀⟩ := hd
      by_cases h0 : k₀ = k
      · subst h0
        simp [Msg.set, Msg.get?, h]
      · simp [Msg.set, Msg.get?, h0, ih]

theorem Msg.hasKey_set_same (m : Msg) (k : String) (v : PyVal) :
    (m.set k v).hasKey k = true := by
  simp [Msg.hasKey, Msg.get?_set_same]

/-! ## Framing codec (`coremq_common.py`)

Wire data is modelled as `List Char` (Python works on `str` after a UTF-8
decode; `json.dumps` emits pure ASCII by default, so the character counts
used by the code agree with the byte counts on the wire). -/

/-- The exception kinds raised by the framing codec: `ConnectionClosed`,
`ProtocolError(text)` and `ValueError(text)`. -/
inductive MqErr where
  | connectionClosed
  | protocolError (text : String)
  | valueError (text : String)
deriving DecidableEq, Repr

/-- The whitespace characters stripped by Python's `int(str)`. -/
def pyWs (c : Char) : Bool :=
  c = ' ' || c = '\t' || c = '\n' || c = '\r' || c = '\x0b' || c = '\x0c'

/-- Strip leading and trailing Python whitespace. -/
def stripWs (s : List Char) : List Char :=
  ((s.dropWhile pyWs).reverse.dropWhile pyWs).reverse

/-- Numeric value of an ASCII digit. -/
def digitVal (c : Char) : Nat := c.toNat - 48

/-- Parse a non-empty all-digit string to its decimal value. -/
def digitsVal? (s : List Char) : Option Nat :=
  if s = [] then none
  else if s.all Char.isDigit then
    some (s.foldl (fun a c => 10 * a + digitVal c) 0)
  else none

/-- Python's `int(str)`: optional surrounding whitespace, an optional sign,
then decimal digits; anything else raises `ValueError`.  (CPython 2
semantics, as targeted by this trollius code base.) -/
def pyInt? (s : List Char) : Option Int :=
  match stripWs s with
  | [] => none
  | c :: rest =>
      if c = '-' then (digitsVal? rest).map (fun n => -(n : Int))
      else if c = '+' then (digitsVal? rest).map (fun n => (n : Int))
      else (digitsVal? (c :: rest)).map (fun n => (n : Int))

/-- Python's `s.split(sep, 1)` when `sep` occurs in `s`: the part before the
first separator and the part after it. -/
def splitFirst (sep : Char) : List Char → List Char × List Char
  | [] => ([], [])
  | c :: rest =>
      if c = sep then ([], rest)
      else
        let p := splitFirst sep rest
        (c :: p.1, p.2)

/-- `validate_header` from `coremq_common.py`: raises `ConnectionClosed` on
empty input, `ProtocolError` when the first byte is not `+`, when no space
occurs, or when the text between `+` and the first space does not parse with
Python's `int`; otherwise returns the parsed length and the rest of the
data. -/
def validate_header : List Char → Except MqErr (Int × List Char)
  | [] => .error .connectionClosed
  | c :: cs =>
      if c ≠ '+' then .error (.protocolError "Missing beginning +")
      else if ' ' ∉ c :: cs then .error (.protocolError "Missing space after length")
      else
        let p := splitFirst ' ' (c :: cs)
        (pyInt? (p.1.drop 1)).elim
          (.error (.protocolError "Length integer must be between + and space"))
          (fun n => .ok (n, p.2))

/-- The decimal rendering `str(n)` of a natural number. -/
def renderNat (n : Nat) : List Char :=
  if n = 0 then ['0'] else ((Nat.digits 10 n).map Nat.digitChar).reverse

/-- The frame bytes built by `send_message`:
`'+%s %s ' % (len(json) + len(queue) + 1, queue)` followed by the JSON
payload. -/
def frameChars (queue jsonSer : String) : List Char :=
  '+' :: renderNat (jsonSer.length + queue.length + 1) ++
    ' ' :: (queue.toList ++ ' ' :: jsonSer.toList)

/-- `send_message` from `coremq_common.py`, on an already-serialized message
(`jsonSer` stands for `json.dumps(message)`): validates the queue name,
rejects serializations longer than 99,999,999 characters with `ValueError`,
and otherwise emits the frame.  (The `isinstance` checks on the queue and the
bare-string wrapping are resolved by the types here: the queue is a string
and the message a dictionary.) -/
def send_message (queue : String) (jsonSer : String) : Except MqErr (List Char) :=
  if queue.length < 1 then
    .error (.valueError "Queue name must be at least one character in length")
  else if ' ' ∈ queue.toList then
    .error (.valueError "Queue name must not contain spaces")
  else if jsonSer.length > 99999999 then
    .error (.valueError "Message cannot be 100MB or larger")
  else .ok (frameChars queue jsonSer)

/-- The receive side of the framing codec on a buffered complete frame, as
performed by `get_message` / `CoreMqServerProtocol.data_received`: validate
the header, take exactly the announced number of characters as the payload
(the code reads from the socket until that many are available and re-queues
any over-read tail), then split the payload at its first space into the
queue name and the JSON text. -/
def parse_message (data : List Char) : Except MqErr (String × List Char) :=
  match validate_header data with
  | .error e => .error e
  | .ok (n, rest) =>
      let payload := rest.take n.toNat
      if ' ' ∉ payload then .error (.protocolError "Missing queue or message")
      else
        let p := splitFirst ' ' payload
        .ok (String.mk p.1, p.2)

/-! ### Framing lemmas -/

theorem digitChar_facts {d : Nat} (hd : d < 10) :
    (Nat.digitChar d).isDigit = true ∧ digitVal (Nat.digitChar d) = d ∧
      pyWs (Nat.digitChar d) = false := by
  interval_cases d <;> refine ⟨by decide, by decide, by decide⟩

theorem isDigit_not_sign_not_ws (c : Char) (h : c.isDigit = true) :
    c ≠ '-' ∧ c ≠ '+' ∧ c ≠ ' ' ∧ pyWs c = false := by
  refine ⟨?_, ?_, ?_, ?_⟩
  · rintro rfl; exact absurd h (by decide)
  · rintro rfl; exact absurd h (by decide)
  · rintro rfl; exact absurd h (by decide)
  · rcases hc : pyWs c with _ | _
    · rfl
    · exfalso
      simp only [pyWs, Bool.or_eq_true, decide_eq_true_eq] at hc
      rcases hc with ((((rfl | rfl) | rfl) | rfl) | rfl) | rfl <;>
        exact absurd h (by decide)

theorem renderNat_ne_nil (n : Nat) : renderNat n ≠ [] := by
  unfold renderNat
  split
  · simp
  · simp [Nat.digits_ne_nil_iff_ne_zero, *]

theorem renderNat_all_digit (n : Nat) : ∀ c ∈ renderNat n, c.isDigit = true := by
  unfold renderNat
  split
  · intro c hc
    simp only [List.mem_singleton] at hc
    subst hc; decide
  · intro c hc
    rw [List.mem_reverse, List.mem_map] at hc
    obtain ⟨d, hd, rfl⟩ := hc
    exact (digitChar_facts (Nat.digits_lt_base (by norm_num) hd)).1

theorem foldl_digitChars (ds : List Nat) (hds : ∀ d ∈ ds, d < 10) :
    ∀ a : Nat,
      ((ds.map Nat.digitChar).reverse.foldl (fun acc c => 10 * acc + digitVal c) a)
        = a * 10 ^ ds.length + Nat.ofDigits 10 ds := by
  induction ds with
  | nil => intro a; simp [Nat.ofDigits]
  | cons d t ih =>
      intro a
      have hd : d < 10 := hds d (by simp)
      have ht : ∀ x ∈ t, x < 10 := fun x hx => hds x (by simp [hx])
      simp only [List.map_cons, List.reverse_cons, List.foldl_append, List.foldl_cons,
        List.foldl_nil]
      rw [ih ht, (digitChar_facts hd).2.1, Nat.ofDigits_cons, List.length_cons]
      ring

theorem digitsVal?_renderNat (n : Nat) : digitsVal? (renderNat n) = some n := by
  by_cases h0 : n = 0
  · subst h0; decide
  · have hne := renderNat_ne_nil n
    have hall : (renderNat n).all Char.isDigit = true := by
      rw [List.all_eq_true]
      exact renderNat_all_digit n
    rw [digitsVal?, if_neg hne, if_pos hall]
    have hrw : renderNat n = ((Nat.digits 10 n).map Nat.digitChar).reverse := by
      simp [renderNat, h0]
    rw [hrw, foldl_digitChars _ (fun d hd => Nat.digits_lt_base (by norm_num) hd) 0,
      Nat.ofDigits_digits]
    simp

theorem pyInt?_renderNat (n : Nat) : pyInt? (renderNat n) = some (n : Int) := by
  have hstrip : stripWs (renderNat n) = renderNat n := by
    have hdw : ∀ s : List Char, (∀ c ∈ s, pyWs c = false) → s.dropWhile pyWs = s := by
      intro s hs
      cases s with
      | nil => rfl
      | cons c rest => simp [List.dropWhile_cons, hs c (by simp)]
    have hnows : ∀ c ∈ renderNat n, pyWs c = false := fun c hc =>
      (isDigit_not_sign_not_ws c (renderNat_all_digit n c hc)).2.2.2
    unfold stripWs
    rw [hdw _ hnows, hdw _ (fun c hc => hnows c (List.mem_reverse.mp hc)),
      List.reverse_reverse]
  obtain ⟨c, rest, hcr⟩ := List.exists_cons_of_ne_nil (renderNat_ne_nil n)
  have hc : c.isDigit = true := renderNat_all_digit n c (by rw [hcr]; simp)
  obtain ⟨hm, hp, _, _⟩ := isDigit_not_sign_not_ws c hc
  rw [pyInt?, hstrip, hcr]
  simp only [hm, hp, if_neg, if_false, reduceIte]
  rw [← hcr, digitsVal?_renderNat]
  rfl

theorem splitFirst_append (sep : Char) (a b : List Char) (ha : sep ∉ a) :
    splitFirst sep (a ++ sep :: b) = (a, b) := by
  induction a with
  | nil => simp [splitFirst]
  | cons c rest ih =>
      have hc : c ≠ sep := fun h => ha (by simp [h])
      simp [splitFirst, hc, ih (fun h => ha (List.mem_cons_of_mem _ h))]

theorem validate_header_frame (n : Nat) (rest : List Char) :
    validate_header ('+' :: renderNat n ++ ' ' :: rest) = .ok ((n : Int), rest) := by
  have hnosp : ' ' ∉ renderNat n := fun hmem =>
    absurd (renderNat_all_digit n ' ' hmem) (by decide)
  have hsplit : splitFirst ' ' (('+' :: renderNat n) ++ ' ' :: rest)
      = ('+' :: renderNat n, rest) := by
    apply splitFirst_append
    intro h
    rcases List.mem_cons.mp h with h | h
    · exact absurd h (by decide)
    · exact hnosp h
  have hmem : ' ' ∈ '+' :: (renderNat n ++ ' ' :: rest) := by simp
  simp only [List.cons_append] at hsplit
  rw [List.cons_append, validate_header, if_neg (by decide), if_neg (not_not_intro hmem)]
  simp only [hsplit, List.drop_succ_cons, List.drop_zero, pyInt?_renderNat, Option.elim]

theorem send_message_ok (q s : String) (hq : q ≠ "") (hsp : ' ' ∉ q.toList)
    (hlen : s.length ≤ 99999999) :
    send_message q s = .ok (frameChars q s) := by
  have hq1 : ¬ q.length < 1 := by
    have : q.length ≠ 0 := fun h => hq (String.ext (List.length_eq_zero.mp h))
    omega
  rw [send_message, if_neg hq1, if_neg hsp, if_neg (by omega)]

theorem parse_frame (q s : String) (hsp : ' ' ∉ q.toList) :
    parse_message (frameChars q s) = .ok (q, s.toList) := by
  have hlen : (q.toList ++ ' ' :: s.toList).length = s.length + q.length + 1 := by
    rw [List.length_append, List.length_cons]
    show q.data.length + (s.data.length + 1) = s.data.length + q.data.length + 1
    omega
  have hmem : ' ' ∈ q.toList ++ ' ' :: s.toList := by simp
  rw [parse_message, frameChars, validate_header_frame]
  simp only [Int.toNat_natCast]
  rw [← hlen, List.take_length, if_neg (not_not_intro hmem),
    splitFirst_append _ _ _ hsp]
  rfl

instance {ε α : Type} [DecidableEq ε] [DecidableEq α] : DecidableEq (Except ε α) :=
  fun a b =>
    match a, b with
    | .ok x, .ok y => decidable_of_iff (x = y) (by simp)
    | .error e, .error f => decidable_of_iff (e = f) (by simp)
    | .ok _, .error _ => isFalse (by simp)
    | .error _, .ok _ => isFalse (by simp)

/-! ### Claim C2: framing round-trip -/

/-- C2.  Framing is a round-trip: for every legal pair `(q, m)` — `q` a
non-empty string containing no space, `m` a dictionary whose JSON
serialization (`dumps m`) is at most 99,999,999 characters — parsing the
bytes produced by `send_message`'s frame construction `'+<len> <queue> <json>'`
yields exactly `(q, m)` back; the length field counts the queue name, the
separating space and the JSON payload.  The JSON codec itself is Python's
`json` module, taken as a parameter with its round-trip property as a
hypothesis. -/
theorem framing_roundtrip {M : Type} (loads : List Char → Option M) (dumps : M → String)
    (q : String) (m : M)
    (hq : q ≠ "") (hsp : ' ' ∉ q.toList)
    (hlen : (dumps m).length ≤ 99999999)
    (hcodec : loads (dumps m).toList = some m) :
    ∃ frame, send_message q (dumps m) = .ok frame ∧
      Except.map (fun r => (r.1, loads r.2)) (parse_message frame) = .ok (q, some m) := by
  refine ⟨frameChars q (dumps m), send_message_ok q _ hq hsp hlen, ?_⟩
  rw [parse_frame q _ hsp]
  show Except.ok (q, loads (dumps m).toList) = Except.ok (q, some m)
  rw [hcodec]

/-- Witness for C2 at the concrete queue `"a"` and the payload `7` under the
decimal codec. -/
theorem framing_roundtrip_witness :
    ("a" : String) ≠ "" ∧ ' ' ∉ ("a" : String).toList ∧
      (toString (7 : Nat)).length ≤ 99999999 ∧
      digitsVal? (toString (7 : Nat)).toList = some 7 ∧
      (∃ frame, send_message "a" (toString (7 : Nat)) = .ok frame ∧
        Except.map (fun r => (r.1, digitsVal? r.2)) (parse_message frame)
          = .ok ("a", some 7)) :=
  ⟨by decide, by decide, by decide, by decide,
    framing_roundtrip (fun l => digitsVal? l) (fun n => toString n) "a" 7
      (by decide) (by decide) (by decide) (by decide)⟩

/-! ### Claim C7: maximum payload size -/

/-- C7 counterexample.  The claim says the server-side framing rejects a
length header of at least 100,000,000 with a `ProtocolError`; but
`validate_header` has no maximum-length check and accepts it. -/
theorem server_accepts_oversize_header :
    validate_header ("+100000000 x".toList) = .ok (100000000, ['x']) ∧
      ¬ (100000000 : Int) < 100000000 := ⟨by decide, by decide⟩

/-- C7 (amended).  The maximum payload size is enforced only on the client
side: the frame emitter raises `ValueError` whenever the serialized message
is longer than 99,999,999 characters (given a valid queue name), while
server-side `validate_header` performs no maximum-length check — it accepts
a well-formed header of any length value, 100,000,000 and beyond included. -/
theorem max_size_client_side_only (q s : String) (n : Nat) (rest : List Char)
    (hq : q ≠ "") (hsp : ' ' ∉ q.toList) (hbig : s.length > 99999999) :
    send_message q s = .error (.valueError "Message cannot be 100MB or larger") ∧
      validate_header ('+' :: renderNat n ++ ' ' :: rest) = .ok ((n : Int), rest) := by
  constructor
  · have hq1 : ¬ q.length < 1 := by
      have : q.length ≠ 0 := fun h => hq (String.ext (List.length_eq_zero.mp h))
      omega
    rw [send_message, if_neg hq1, if_neg hsp, if_pos hbig]
  · exact validate_header_frame n rest

/-- Witness for C7 (amended) with a 100,000,000-character payload and a
100,000,000-valued length header. -/
theorem max_size_client_side_only_witness :
    (String.mk (List.replicate 100000000 'a')).length > 99999999 ∧
      (send_message "q" (String.mk (List.replicate 100000000 'a'))
          = .error (.valueError "Message cannot be 100MB or larger") ∧
        validate_header ('+' :: renderNat 100000000 ++ ' ' :: ['x'])
          = .ok ((100000000 : Int), ['x'])) := by
  have hb : (String.mk (List.replicate 100000000 'a')).length > 99999999 := by
    show (List.replicate 100000000 'a').length > 99999999
    rw [List.length_replicate]
    norm_num
  exact ⟨hb, max_size_client_side_only "q" _ 100000000 ['x'] (by decide) (by decide) hb⟩

/-! ### Claim C8: header validation errors -/

/-- C8 counterexample.  The claim says `validate_header` raises
`ProtocolError` when the text between `+` and the space does not parse as a
non-negative integer; but Python's `int` accepts a sign, so the header
`"+-5 x"` is accepted with the negative length `-5` instead of raising. -/
theorem validate_header_negative_ok :
    validate_header ('+' :: '-' :: '5' :: ' ' :: ['x']) = .ok (-5, ['x']) ∧
      (-5 : Int) < 0 := ⟨by decide, by decide⟩

/-- C8 (amended).  Header validation raises exactly these errors:
`ConnectionClosed` when the input is empty; `ProtocolError` when the first
byte is not `'+'`, when no space occurs, or when the text between `'+'` and
the first space does not parse under Python's `int` (which accepts an
optional sign, so negative lengths are *returned*, not rejected); on any
other input it returns the parsed length and the data after the first
space. -/
theorem validate_header_classification (data : List Char) :
    (validate_header data = .error .connectionClosed ↔ data = []) ∧
      ((∃ t, validate_header data = .error (.protocolError t)) ↔
        (data ≠ [] ∧ (data.head? ≠ some '+' ∨ ' ' ∉ data ∨
          pyInt? ((splitFirst ' ' data).1.drop 1) = none))) ∧
      (∀ n : Int, data.head? = some '+' → ' ' ∈ data →
        pyInt? ((splitFirst ' ' data).1.drop 1) = some n →
        validate_header data = .ok (n, (splitFirst ' ' data).2)) := by
  have heval : ∀ cs : List Char, ' ' ∈ '+' :: cs →
      validate_header ('+' :: cs)
        = ((pyInt? ((splitFirst ' ' ('+' :: cs)).1.drop 1)).elim
            (.error (.protocolError "Length integer must be between + and space"))
            (fun n => .ok (n, (splitFirst ' ' ('+' :: cs)).2))) := by
    intro cs hsp
    rw [validate_header, if_neg (by decide), if_neg (not_not_intro hsp)]
  cases data with
  | nil =>
      refine ⟨by rw [validate_header]; simp, by rw [validate_header]; simp, ?_⟩
      intro n h1
      simp at h1
  | cons c cs =>
      by_cases hc : c = '+'
      · subst hc
        by_cases hsp : ' ' ∈ '+' :: cs
        · cases hint : pyInt? ((splitFirst ' ' ('+' :: cs)).1.drop 1) with
          | none =>
              refine ⟨?_, ?_, ?_⟩
              · rw [heval cs hsp, hint]
                simp [Option.elim]
              · rw [heval cs hsp, hint]
                simp [Option.elim, hsp]
              · intro n _ _ h3
                cases h3
          | some k =>
              refine ⟨?_, ?_, ?_⟩
              · rw [heval cs hsp, hint]
                simp [Option.elim]
              · rw [heval cs hsp, hint]
                simp [Option.elim, hsp]
              · intro n _ _ h3
                cases h3
                rw [heval cs hsp, hint]
                rfl
        · refine ⟨?_, ?_, ?_⟩
          · rw [validate_header, if_neg (by decide), if_pos hsp]
            simp
          · rw [validate_header, if_neg (by decide), if_pos hsp]
            simp [hsp]
          · intro n _ h2
            exact absurd h2 hsp
      · refine ⟨?_, ?_, ?_⟩
        · rw [validate_header, if_pos hc]
          simp
        · rw [validate_header, if_pos hc]
          constructor
          · intro _
            exact ⟨by simp, Or.inl (by simpa using hc)⟩
          · intro _
            exact ⟨_, rfl⟩
        · intro n h1
          simp only [List.head?_cons, Option.some.injEq] at h1
          exact absurd h1 hc

/-- Witness for C8 (amended) on the concrete header `"+5 x"`. -/
theorem validate_header_classification_witness :
    (['+', '5', ' ', 'x'].head? = some '+' ∧ ' ' ∈ ['+', '5', ' ', 'x'] ∧
        pyInt? ((splitFirst ' ' ['+', '5', ' ', 'x']).1.drop 1) = some 5) ∧
      validate_header ['+', '5', ' ', 'x']
        = .ok (5, (splitFirst ' ' ['+', '5', ' ', 'x']).2) :=
  ⟨⟨by decide, by decide, by decide⟩,
    (validate_header_classification ['+', '5', ' ', 'x']).2.2 5
      (by decide) (by decide) (by decide)⟩

/-! ## Broker state and operations (`aio_server.py`)

Python dictionaries (insertion-ordered, unique string keys) are modelled as
association lists with the helpers below. -/

def dictGet? {α : Type} (l : List (String × α)) (k : String) : Option α :=
  match l with
  | [] => none
  | (k', v) :: rest => if k' = k then some v else dictGet? rest k

def dictSet {α : Type} (l : List (String × α)) (k : String) (v : α) :
    List (String × α) :=
  match l with
  | [] => [(k, v)]
  | (k', v') :: rest =>
      if k' = k then (k', v) :: rest else (k', v') :: dictSet rest k v

def dictDel {α : Type} (l : List (String × α)) (k : String) : List (String × α) :=
  match l with
  | [] => []
  | (k', v') :: rest => if k' = k then rest else (k', v') :: dictDel rest k

/-- Update the value bound to `k` when present, leave the dictionary
unchanged otherwise (used to mirror a mutation of an object that may or may
not still sit in a registry). -/
def dictSetIfPresent {α : Type} (l : List (String × α)) (k : String) (v : α) :
    List (String × α) :=
  match l with
  | [] => []
  | (k', v') :: rest =>
      if k' = k then (k', v) :: rest else (k', v') :: dictSetIfPresent rest k v

theorem dictGet?_dictSet_same {α : Type} (l : List (String × α)) (k : String) (v : α) :
    dictGet? (dictSet l k v) k = some v := by
  induction l with
  | nil => simp [dictSet, dictGet?]
  | cons hd tl ih =>
      obtain ⟨k', v'⟩ := hd
      by_cases h : k' = k <;> simp [dictSet, dictGet?, h, ih]

theorem dictGet?_dictSet_ne {α : Type} (l : List (String × α)) (k k' : String) (v : α)
    (h : k ≠ k') : dictGet? (dictSet l k v) k' = dictGet? l k' := by
  induction l with
  | nil => simp [dictSet, dictGet?, h]
  | cons hd tl ih =>
      obtain ⟨k₀, v₀⟩ := hd
      by_cases h0 : k₀ = k
      · subst h0
        simp [dictSet, dictGet?, h]
      · simp [dictSet, dictGet?, h0, ih]

/-- Exceptions of the modelled Python runtime. -/
inductive PyErr where
  | keyError
  | typeError
deriving DecidableEq, Repr

/-- One accepted TCP connection: the mutable fields of a
`CoreMqServerProtocol` instance.  `peerIp` is `self.peer[0]`; `hostname` is
the best-effort reverse-resolved peer hostname.  Subscriptions are whatever
JSON values the client sent (queue matching compares them to the published
queue-name string). -/
structure Conn where
  uuid : String
  peerIp : String
  hostname : String
  subscriptions : List PyVal
  options : List (String × PyVal)
  is_replicant : Bool
deriving DecidableEq, Repr

/-- The process-wide broker state (class `ServerState`).  `master` is the
upstream master handle, identified by its connected-server string; it is
present iff this broker runs as a replicant. -/
structure ServerState where
  name : String
  listenPort : Nat
  connections : List (String × Conn)
  allowed_replicants : List String
  replicant_id_to_name : List (String × PyVal)
  history : List (String × List Msg)
  master : Option String
deriving DecidableEq, Repr

/-- A frame written to a connection's transport during fan-out. -/
structure Send where
  target : String
  queue : String
  msg : Msg
deriving DecidableEq, Repr

/-! ### History ring (`store_message` / `get_history`) -/

/-- `deque(maxlen=10).append`: append, then discard from the left down to 10
entries. -/
def dequeAppend10 (l : List Msg) (m : Msg) : List Msg :=
  if 10 < (l ++ [m]).length then (l ++ [m]).drop ((l ++ [m]).length - 10)
  else l ++ [m]

/-- The body of `CoreMqServerProtocol.store_message`: create the ring on
first write for the queue, then append the message.  Note that the program
never executes this body: `store_message` is an `@asyncio.coroutine`, and
its only call site (the publish branch of `new_message`) invokes it without
`yield asyncio.From(...)`, discarding the un-iterated coroutine — see
`publish_stores_nothing`. -/
def store_message (hist : List (String × List Msg)) (queue : String) (message : Msg) :
    List (String × List Msg) :=
  dictSet hist queue (dequeAppend10 ((dictGet? hist queue).getD []) message)

/-- One iteration of the loop in `CoreMqServerProtocol.get_history`: for a
requested name `q`, `if q in ServerState.history: result[q] = list(...)`.
A hashable non-string request value never equals a (string) history key; an
unhashable one (a list or a dict) makes the `in` test raise `TypeError`,
aborting the reply. -/
def get_history_step (hist : List (String × List Msg))
    (res : List (String × List Msg)) (q : PyVal) :
    Except PyErr (List (String × List Msg)) :=
  match q with
  | .pyStr s => .ok ((dictGet? hist s).elim res (fun l => dictSet res s l))
  | .pyList _ => .error .typeError
  | .pyDict _ => .error .typeError
  | _ => .ok res

/-- The result dictionary built by `CoreMqServerProtocol.get_history`: an
entry `q ↦ list(history[q])` for each requested name found in the broker
history; requested queues with no history are absent. -/
def get_history_result (hist : List (String × List Msg)) (queues : List PyVal) :
    Except PyErr (List (String × List Msg)) :=
  queues.foldlM (get_history_step hist) []

/-! ### Fan-out engine (`broadcast`) -/

/-- Result of `CoreMqServerProtocol.broadcast`: the frame written to the
master handle (if any), the deliveries of the replicant fan-out step, the
deliveries of the local-subscriber step, the message object after the call
(the code mutates it in place), and an exception escaping the loops (the
deliveries made before it are kept). -/
structure BcastOut where
  upstream : Option (String × Msg)
  repSends : List Send
  subSends : List Send
  msg : Msg
  err : Option PyErr
deriving DecidableEq, Repr

/-- The per-iteration stamp of step 2 of `broadcast`: a master broker (one
without an upstream handle) sets `coremq_master := ServerState.name` on the
message before each replicant send. -/
def stampMaster (st : ServerState) (m : Msg) : Msg :=
  if st.master.isNone then m.set "coremq_master" (.pyStr st.name) else m

/-- Step 2 of `broadcast`: the loop over `replicant_id_to_name`.  Each
iteration fetches the connection (`KeyError` when the id is gone from the
registry), stamps `coremq_master` when this broker has no master handle, and
then sends unless the replicant's declared name equals the message's
`coremq_server` (whose absence raises `KeyError`). -/
def repLoop (st : ServerState) (queue : String) :
    List (String × PyVal) → Msg → Msg × List Send × Option PyErr
  | [], m => (m, [], none)
  | (i, n) :: rest, m =>
      if (dictGet? st.connections i).isNone then (m, [], some .keyError)
      else
        ((stampMaster st m).get? "coremq_server").elim
          (stampMaster st m, [], some PyErr.keyError)
          (fun v =>
            let out := repLoop st queue rest (stampMaster st m)
            if n ≠ v then (out.1, ⟨i, queue, stampMaster st m⟩ :: out.2.1, out.2.2)
            else (out.1, out.2.1, out.2.2))

/-- Step 3 of `broadcast`: the loop over the connection registry.  A
connection is skipped when its identifier equals the message's
`coremq_sender` or when it is a replicant; otherwise it receives the message
iff the published queue name is in its subscription set. -/
def subLoop (queue : String) (m : Msg) : List (String × Conn) → List Send
  | [] => []
  | (i, c) :: rest =>
      if m.get? "coremq_sender" = some (.pyStr i) ∨ c.is_replicant = true then
        subLoop queue m rest
      else if (PyVal.pyStr queue) ∈ c.subscriptions then
        ⟨i, queue, m⟩ :: subLoop queue m rest
      else subLoop queue m rest

/-- Whether step 1 of `broadcast` forwards upstream: the broker has a master
handle and the message does not already carry `coremq_master`. -/
def upstreamFlag (st : ServerState) (message : Msg) : Bool :=
  st.master.isSome && !(message.hasKey "coremq_master")

/-- The message after step 1 of `broadcast`: inside the upstream branch,
`coremq_fwdto := coremq_sender` when the former is absent and the latter
present. -/
def upstreamMsg (st : ServerState) (message : Msg) : Msg :=
  if upstreamFlag st message then
    if !(message.hasKey "coremq_fwdto") && message.hasKey "coremq_sender" then
      (message.get? "coremq_sender").elim message
        (fun v => message.set "coremq_fwdto" v)
    else message
  else message

/-- `CoreMqServerProtocol.broadcast`: (1) when this broker has a master
handle and the message does not carry `coremq_master`, alias
`coremq_fwdto := coremq_sender` when absent and forward the message
upstream; (2) fan out to each replicant connection, skipping the one whose
declared name equals `coremq_server`; (3) deliver to the matching local
subscribers (skipped entirely when step 2 raised). -/
def broadcast (st : ServerState) (queue : String) (message : Msg) : BcastOut :=
  let m1 := upstreamMsg st message
  let rep := repLoop st queue st.replicant_id_to_name m1
  ⟨if upstreamFlag st message then some (queue, m1) else none,
    rep.2.1,
    if rep.2.2.isSome then [] else subLoop queue rep.1 st.connections,
    rep.1,
    rep.2.2⟩

/-! ### Replication handshake (`begin_replication`) -/

/-- Python `r.split(':')[0].split('.')[0].lower()`: strip a port, take the
first hostname label, lowercase.  (`s.split(sep)[0]` is the prefix of `s`
before the first separator.) -/
def shortName (r : String) : String :=
  String.mk
    (((r.toList.takeWhile (fun c => c ≠ ':')).takeWhile (fun c => c ≠ '.')).map
      Char.toLower)

/-- Python `h.split('.')[0].lower()` applied to the peer hostname. -/
def hostShort (h : String) : String :=
  String.mk ((h.toList.takeWhile (fun c => c ≠ '.')).map Char.toLower)

/-- The admission check of `begin_replication`: the peer's IP, or the
lowercased first label of its resolved hostname, against the normalized
allowed-replicants list. -/
def replicationAllowed (st : ServerState) (c : Conn) : Bool :=
  let allowed := st.allowed_replicants.map shortName
  (c.peerIp ∈ allowed) || (hostShort c.hostname ∈ allowed)

/-- Output of `begin_replication`: updated broker state, updated connection
(`self`), the `respond` emissions `(to, text)`, and whether the handler
closed the connection. -/
structure RepHandshakeOut where
  st : ServerState
  conn : Conn
  replies : List (String × String)
  closed : Bool
deriving DecidableEq, Repr

/-- `CoreMqServerProtocol.begin_replication`: when the peer is allowed,
record `replicant_id_to_name[uuid] = name` (only when the id has no entry
yet), set `is_replicant = True` on `self` (which is the registry object when
registered), and respond `OK: Replication request successful`; otherwise
respond `ERROR: Not allowed to be a replicant`.  No branch closes the
connection or touches the transport. -/
def begin_replication (st : ServerState) (selfC : Conn) (name : PyVal) :
    RepHandshakeOut :=
  if replicationAllowed st selfC then
    let map' :=
      if (dictGet? st.replicant_id_to_name selfC.uuid).isSome then
        st.replicant_id_to_name
      else dictSet st.replicant_id_to_name selfC.uuid name
    let conn' := { selfC with is_replicant := true }
    let st' := { st with
      replicant_id_to_name := map'
      connections := dictSetIfPresent st.connections selfC.uuid conn' }
    ⟨st', conn', [(selfC.uuid, "OK: Replication request successful")], false⟩
  else
    ⟨st, selfC, [(selfC.uuid, "ERROR: Not allowed to be a replicant")], false⟩

/-! ### Connection actor stamping (`data_received`) -/

/-- The stamping step of `data_received`: once a frame parses to a JSON
object, the broker overwrites `coremq_sender` with the connection's
server-minted identifier and `coremq_sent` with the current wall-clock time
(`message.update(dict(coremq_sender=self.uuid, coremq_sent=time.time()))`)
before handing `(queue, message)` to `new_message`.  The clock reading is an
opaque parameter. -/
def stampInbound (connId : String) (now : PyVal) (m : Msg) : Msg :=
  (m.set "coremq_sender" (.pyStr connId)).set "coremq_sent" now

/-! ### Command dispatcher (`new_message`) -/

/-- Python truthiness of a JSON value (`if not queues: ...`). -/
def pyFalsy : PyVal → Bool
  | .pyNone => true
  | .pyBool b => !b
  | .pyInt n => n = 0
  | .pyStr s => s = ""
  | .pyList xs => xs.isEmpty
  | .pyDict xs => xs.isEmpty

/-- `if not isinstance(queues, (list, tuple)): queues = [queues]`. -/
def asPyList : PyVal → List PyVal
  | .pyList xs => xs
  | v => [v]

/-- Python iteration over a JSON value: lists yield their elements, strings
their one-character substrings, dicts their keys; other values raise
`TypeError`. -/
def pyIter : PyVal → Except PyErr (List PyVal)
  | .pyList xs => .ok xs
  | .pyStr s => .ok (s.toList.map (fun ch => .pyStr (String.mk [ch])))
  | .pyDict xs => .ok (xs.map (fun kv => .pyStr kv.1))
  | _ => .error .typeError

/-- `CoreMqServerProtocol.subscribe` acting on a subscription list: nothing
on a falsy argument, otherwise append each listed value not yet present. -/
def subscribeOp (queues : PyVal) (subs : List PyVal) : List PyVal :=
  if pyFalsy queues then subs
  else (asPyList queues).foldl (fun s q => if q ∈ s then s else s ++ [q]) subs

/-- `CoreMqServerProtocol.unsubscribe`: remove the first occurrence of each
listed value, when present. -/
def unsubscribeOp (queues : PyVal) (subs : List PyVal) : List PyVal :=
  if pyFalsy queues then subs
  else (asPyList queues).foldl (fun s q => s.erase q) subs

/-- `CoreMqServerProtocol.set_options`: `opts.update(options)`, then delete
every option whose new value is `None`; a non-dict argument raises
`TypeError`. -/
def setOptionsOp (options : PyVal) (opts : List (String × PyVal)) :
    Except PyErr (List (String × PyVal)) :=
  match options with
  | .pyDict d =>
      let merged := d.foldl (fun o kv => dictSet o kv.1 kv.2) opts
      .ok (d.foldl
        (fun o kv =>
          if kv.2 = .pyNone ∧ (dictGet? o kv.1).isSome then dictDel o kv.1 else o)
        merged)
  | _ => .error .typeError

/-- The status frame built by `get_status` (master and replicant forms). -/
def statusMsg (st : ServerState) (replyTo : PyVal) : Msg :=
  match st.master with
  | none =>
      [("coremq_fwdto", replyTo),
       ("master", .pyStr st.name),
       ("replicants", .pyList (st.replicant_id_to_name.map (fun e => e.2))),
       ("connections", .pyInt st.connections.length)]
  | some ms =>
      [("replicant_of", .pyStr ms),
       ("replicants", .pyList (st.replicant_id_to_name.map (fun e => e.2))),
       ("connections", .pyInt st.connections.length)]

/-- The `{history: {...}}` frame sent by `get_history`. -/
def historyMsg (result : List (String × List Msg)) : Msg :=
  [("history",
    .pyDict (result.map (fun e => (e.1, PyVal.pyList (e.2.map PyVal.pyDict)))))]

/-- The elif chain of `new_message`, in source order. -/
inductive Branch where
  | subscribe | unsubscribe | options | gethistory | replicant | status | publish
deriving DecidableEq, Repr

def dispatchBranch (m : Msg) : Branch :=
  if m.hasKey "coremq_subscribe" then .subscribe
  else if m.hasKey "coremq_unsubscribe" then .unsubscribe
  else if m.hasKey "coremq_options" then .options
  else if m.hasKey "coremq_gethistory" then .gethistory
  else if m.hasKey "coremq_replicant" then .replicant
  else if m.hasKey "coremq_status" then .status
  else .publish

/-- `CoreMqServerProtocol.respond`: emits `{response: text}` to `to` unless
`quiet`. -/
def respondEmit (replyTo : PyVal) (text : String) (quiet : Bool) : List (PyVal × String) :=
  if quiet then [] else [(replyTo, text)]

/-- Observable outcome of one `new_message` dispatch: the `respond` reply
emissions (each one a `{response: text}` frame addressed to its target), the
direct `send_message` emissions (history and status frames), the broadcast
output when the frame was a publish, the updated broker state and
connection, and the re-raised exception if the handler failed. -/
structure NmOut where
  replies : List (PyVal × String)
  sends : List (PyVal × Msg)
  bcast : Option BcastOut
  st : ServerState
  conn : Conn
  raised : Option PyErr
deriving Repr

/-- `CoreMqServerProtocol.new_message`: stamp `coremq_server` on first
observation (an already-present `coremq_server` means the frame arrived via
replication and makes every `respond` quiet); compute the reply target
(`coremq_fwdto` when present on a replicant connection, the connection's own
identifier otherwise); then dispatch on the first matching command key, with
a publish as the fallback; a handler exception is answered with a quiet
`ERROR` reply and re-raised. -/
def new_message (st : ServerState) (selfC : Conn) (queue : String) (message : Msg) :
    NmOut :=
  let quiet := message.hasKey "coremq_server"
  let message :=
    if quiet then message
    else message.set "coremq_server" (.pyStr (st.name ++ ":" ++ toString st.listenPort))
  let replyTo : PyVal :=
    if message.hasKey "coremq_fwdto" && selfC.is_replicant then
      (message.get? "coremq_fwdto").getD .pyNone
    else .pyStr selfC.uuid
  match dispatchBranch message with
  | .subscribe =>
      match dictGet? st.connections selfC.uuid with
      | none => ⟨respondEmit replyTo "ERROR: KeyError" quiet, [], none, st, selfC, some .keyError⟩
      | some c =>
          let subs' := subscribeOp ((message.get? "coremq_subscribe").getD .pyNone) c.subscriptions
          let c' := { c with subscriptions := subs' }
          ⟨respondEmit replyTo "OK: Subscribe successful" quiet, [], none,
            { st with connections := dictSet st.connections selfC.uuid c' }, c', none⟩
  | .unsubscribe =>
      match dictGet? st.connections selfC.uuid with
      | none => ⟨respondEmit replyTo "ERROR: KeyError" quiet, [], none, st, selfC, some .keyError⟩
      | some c =>
          let subs' := unsubscribeOp ((message.get? "coremq_unsubscribe").getD .pyNone) c.subscriptions
          let c' := { c with subscriptions := subs' }
          ⟨respondEmit replyTo "OK: Unsubscribe successful" quiet, [], none,
            { st with connections := dictSet st.connections selfC.uuid c' }, c', none⟩
  | .options =>
      match dictGet? st.connections selfC.uuid with
      | none => ⟨respondEmit replyTo "ERROR: KeyError" quiet, [], none, st, selfC, some .keyError⟩
      | some c =>
          match setOptionsOp ((message.get? "coremq_options").getD .pyNone) c.options with
          | .error e => ⟨respondEmit replyTo "ERROR: TypeError" quiet, [], none, st, selfC, some e⟩
          | .ok o' =>
              let c' := { c with options := o' }
              ⟨respondEmit replyTo "OK: Options set" quiet, [], none,
                { st with connections := dictSet st.connections selfC.uuid c' }, c', none⟩
  | .gethistory =>
      match pyIter ((message.get? "coremq_gethistory").getD .pyNone) with
      | .error e => ⟨respondEmit replyTo "ERROR: TypeError" quiet, [], none, st, selfC, some e⟩
      | .ok qs =>
          match get_history_result st.history qs with
          | .error e =>
              ⟨respondEmit replyTo "ERROR: TypeError" quiet, [], none, st, selfC, some e⟩
          | .ok result =>
              ⟨[], [(replyTo, historyMsg result)], none, st, selfC, none⟩
  | .replicant =>
      let out := begin_replication st selfC ((message.get? "coremq_replicant").getD .pyNone)
      ⟨out.replies.map (fun r => (PyVal.pyStr r.1, r.2)), [], none, out.st, out.conn, none⟩
  | .status =>
      ⟨[], [(replyTo, statusMsg st replyTo)], none, st, selfC, none⟩
  | .publish =>
      -- `self.store_message(queue, message)` builds an `@asyncio.coroutine`
      -- object that is discarded without `yield asyncio.From(...)`: its body
      -- never runs, so the broker history is left untouched.
      let b := broadcast st queue message
      match b.err with
      | some e => ⟨respondEmit replyTo "ERROR: KeyError" quiet, [], some b, st, selfC, some e⟩
      | none => ⟨respondEmit replyTo "OK: Message sent" quiet, [], some b, st, selfC, none⟩

/-! ### Fan-out lemmas -/

theorem stampMaster_get? (st : ServerState) (m : Msg) (k : String)
    (hk : k ≠ "coremq_master") : (stampMaster st m).get? k = m.get? k := by
  unfold stampMaster
  split
  · exact Msg.get?_set_ne _ _ _ _ (Ne.symm hk)
  · rfl

theorem upstreamMsg_get? (st : ServerState) (message : Msg) (k : String)
    (hk : k ≠ "coremq_fwdto") :
    (upstreamMsg st message).get? k = message.get? k := by
  unfold upstreamMsg
  split
  · split
    · cases hv : message.get? "coremq_sender" with
      | none => simp [Option.elim, hv]
      | some v => simp [Option.elim, hv, Msg.get?_set_ne _ _ _ _ (Ne.symm hk)]
    · rfl
  · rfl

theorem repLoop_get? (st : ServerState) (queue k : String) (hk : k ≠ "coremq_master") :
    ∀ (lst : List (String × PyVal)) (m : Msg),
      ((repLoop st queue lst m).1).get? k = m.get? k := by
  intro lst
  induction lst with
  | nil => intro m; rfl
  | cons hd tl ih =>
      obtain ⟨i, n⟩ := hd
      intro m
      rw [repLoop]
      split
      · rfl
      · cases hv : (stampMaster st m).get? "coremq_server" with
        | none => simp [Option.elim, hv, stampMaster_get? st m k hk]
        | some v =>
            simp only [Option.elim, hv]
            split
            · exact (ih (stampMaster st m)).trans (stampMaster_get? st m k hk)
            · exact (ih (stampMaster st m)).trans (stampMaster_get? st m k hk)

theorem repLoop_sends (st : ServerState) (queue X : String) :
    ∀ (lst : List (String × PyVal)) (m : Msg),
      m.get? "coremq_server" = some (.pyStr X) →
      ∀ s ∈ (repLoop st queue lst m).2.1,
        ∃ n, (s.target, n) ∈ lst ∧ n ≠ PyVal.pyStr X := by
  intro lst
  induction lst with
  | nil =>
      intro m _ s hs
      simp [repLoop] at hs
  | cons hd tl ih =>
      obtain ⟨i, n⟩ := hd
      intro m hm s hs
      have hm' : (stampMaster st m).get? "coremq_server" = some (.pyStr X) := by
        rw [stampMaster_get? st m _ (by decide), hm]
      rw [repLoop] at hs
      split at hs
      · simp at hs
      · rw [hm'] at hs
        simp only [Option.elim] at hs
        split at hs
        · rename_i hne
          rcases List.mem_cons.mp hs with h | h
          · subst h
            exact ⟨n, by simp, hne⟩
          · obtain ⟨n', hn', hx⟩ := ih (stampMaster st m) hm' s h
            exact ⟨n', by simp [hn'], hx⟩
        · obtain ⟨n', hn', hx⟩ := ih (stampMaster st m) hm' s hs
          exact ⟨n', by simp [hn'], hx⟩

theorem dictKeys_nodup_eq {α : Type} (l : List (String × α))
    (hnd : (l.map Prod.fst).Nodup) (k : String) (a b : α)
    (ha : (k, a) ∈ l) (hb : (k, b) ∈ l) : a = b := by
  induction l with
  | nil => cases ha
  | cons hd tl ih =>
      obtain ⟨k', v⟩ := hd
      simp only [List.map_cons, List.nodup_cons] at hnd
      rcases List.mem_cons.mp ha with h1 | h1 <;> rcases List.mem_cons.mp hb with h2 | h2
      · simp only [Prod.mk.injEq] at h1 h2
        rw [h1.2, h2.2]
      · simp only [Prod.mk.injEq] at h1
        exfalso
        exact hnd.1 (h1.1 ▸ (List.mem_map.mpr ⟨(k, b), h2, rfl⟩))
      · simp only [Prod.mk.injEq] at h2
        exfalso
        exact hnd.1 (h2.1 ▸ (List.mem_map.mpr ⟨(k, a), h1, rfl⟩))
      · exact ih hnd.2 h1 h2

theorem subLoop_mem (queue : String) (m : Msg) :
    ∀ (conns : List (String × Conn)) (i q' : String) (m' : Msg),
      ((⟨i, q', m'⟩ : Send) ∈ subLoop queue m conns ↔
        (q' = queue ∧ m' = m ∧ ∃ c, (i, c) ∈ conns ∧
          ¬ (m.get? "coremq_sender" = some (.pyStr i)) ∧ c.is_replicant = false ∧
          PyVal.pyStr queue ∈ c.subscriptions)) := by
  intro conns
  induction conns with
  | nil =>
      intro i q' m'
      simp [subLoop]
  | cons hd rest ih =>
      obtain ⟨j, c⟩ := hd
      intro i q' m'
      rw [subLoop]
      by_cases hskip : m.get? "coremq_sender" = some (.pyStr j) ∨ c.is_replicant = true
      · rw [if_pos hskip, ih]
        constructor
        · rintro ⟨hq, hm, c₀, hc₀, hcond⟩
          exact ⟨hq, hm, c₀, List.mem_cons_of_mem _ hc₀, hcond⟩
        · rintro ⟨hq, hm, c₀, hc₀, hns, hnr, hsub⟩
          rcases List.mem_cons.mp hc₀ with h | h
          · simp only [Prod.mk.injEq] at h
            exfalso
            rcases hskip with hx | hx
            · exact hns (h.1 ▸ hx)
            · rw [h.2] at hnr
              exact absurd hx (by rw [hnr]; decide)
          · exact ⟨hq, hm, c₀, h, hns, hnr, hsub⟩
      · push_neg at hskip
        obtain ⟨hns, hnr⟩ := hskip
        rw [if_neg (not_or_intro hns hnr)]
        by_cases hsub : PyVal.pyStr queue ∈ c.subscriptions
        · rw [if_pos hsub]
          constructor
          · intro hmem
            rcases List.mem_cons.mp hmem with h | h
            · simp only [Send.mk.injEq] at h
              obtain ⟨rfl, rfl, rfl⟩ := h
              exact ⟨rfl, rfl, c, by simp, hns, by simpa using hnr, hsub⟩
            · obtain ⟨hq, hm, c₀, hc₀, hcond⟩ := (ih i q' m').mp h
              exact ⟨hq, hm, c₀, List.mem_cons_of_mem _ hc₀, hcond⟩
          · rintro ⟨rfl, rfl, c₀, hc₀, hns₀, hnr₀, hsub₀⟩
            rcases List.mem_cons.mp hc₀ with h | h
            · simp only [Prod.mk.injEq] at h
              obtain ⟨rfl, rfl⟩ := h
              exact List.mem_cons_self _ _
            · exact List.mem_cons_of_mem _ ((ih i _ _).mpr ⟨rfl, rfl, c₀, h, hns₀, hnr₀, hsub₀⟩)
        · rw [if_neg hsub, ih]
          constructor
          · rintro ⟨hq, hm, c₀, hc₀, hcond⟩
            exact ⟨hq, hm, c₀, List.mem_cons_of_mem _ hc₀, hcond⟩
          · rintro ⟨hq, hm, c₀, hc₀, hns₀, hnr₀, hsub₀⟩
            rcases List.mem_cons.mp hc₀ with h | h
            · simp only [Prod.mk.injEq] at h
              exfalso
              obtain ⟨rfl, rfl⟩ := h
              exact hsub hsub₀
            · exact ⟨hq, hm, c₀, h, hns₀, hnr₀, hsub₀⟩

/-! ### Claim C4: no upstream forwarding of `coremq_master` messages -/

/-- C4.  A message that carries the `coremq_master` key is never forwarded
upstream to the master: the upstream send of `broadcast` happens exactly
when the broker has a master handle and `coremq_master` is absent from the
message. -/
theorem upstream_iff (st : ServerState) (queue : String) (message : Msg) :
    (broadcast st queue message).upstream.isSome
      = (st.master.isSome && !(message.hasKey "coremq_master")) := by
  rw [show (st.master.isSome && !(message.hasKey "coremq_master"))
      = upstreamFlag st message from rfl]
  show (if upstreamFlag st message then some (queue, upstreamMsg st message)
    else none).isSome = _
  by_cases h : upstreamFlag st message <;> simp [h]

/-! ### Claim C1: no echo back to the origin replicant -/

/-- C1.  For every broadcast of a message whose `coremq_server` equals `X`,
no delivery of the fan-out targets a connection whose declared replicant
name is `X`: the replicant step skips every entry of `replicant_id_to_name`
with declared name `X`, and the local-subscriber step skips replicant
connections altogether.  The hypotheses state two reachable-state
invariants: `replicant_id_to_name` has unique keys (it is a Python dict) and
every connection it lists is flagged `is_replicant`. -/
theorem broadcast_no_echo_to_origin (st : ServerState) (queue X : String) (message : Msg)
    (hserv : message.get? "coremq_server" = some (.pyStr X))
    (hnd : (st.replicant_id_to_name.map Prod.fst).Nodup)
    (hrep : ∀ i n, (i, n) ∈ st.replicant_id_to_name →
      ∀ c, (i, c) ∈ st.connections → c.is_replicant = true) :
    ∀ s, (s ∈ (broadcast st queue message).repSends ∨
        s ∈ (broadcast st queue message).subSends) →
      ∀ n, (s.target, n) ∈ st.replicant_id_to_name → n ≠ PyVal.pyStr X := by
  have hm1 : (upstreamMsg st message).get? "coremq_server" = some (.pyStr X) := by
    rw [upstreamMsg_get? st message _ (by decide), hserv]
  intro s hs n hn
  rcases hs with hs | hs
  · have hrw : (broadcast st queue message).repSends
        = (repLoop st queue st.replicant_id_to_name (upstreamMsg st message)).2.1 := rfl
    rw [hrw] at hs
    obtain ⟨n₀, hn₀, hx₀⟩ := repLoop_sends st queue X _ _ hm1 s hs
    rw [dictKeys_nodup_eq _ hnd _ _ _ hn hn₀]
    exact hx₀
  · have hrw : (broadcast st queue message).subSends
        = (if (repLoop st queue st.replicant_id_to_name (upstreamMsg st message)).2.2.isSome
            then []
            else subLoop queue
              (repLoop st queue st.replicant_id_to_name (upstreamMsg st message)).1
              st.connections) := rfl
    rw [hrw] at hs
    split at hs
    · simp at hs
    · obtain ⟨t, qs, ms⟩ := s
      obtain ⟨_, _, c, hc, _, hnr, _⟩ := (subLoop_mem queue _ st.connections t qs ms).mp hs
      exfalso
      have := hrep t n hn c hc
      rw [this] at hnr
      cases hnr

/-- A replicant connection used by the C1 witness. -/
def connR1 : Conn := ⟨"R1", "1.2.3.4", "r", [], [], true⟩

/-- A one-replicant master broker used by the C1 witness. -/
def stC1 : ServerState :=
  ⟨"m", 6747, [("R1", connR1)], [], [("R1", PyVal.pyStr "r:6747")], [], none⟩

/-- A replicated message originating at this broker, used by the C1 witness. -/
def msgC1 : Msg := [("coremq_server", PyVal.pyStr "m:6747")]

/-- Witness for C1 at a one-replicant master broker. -/
theorem broadcast_no_echo_to_origin_witness :
    (msgC1.get? "coremq_server" = some (.pyStr "m:6747")) ∧
      (∀ s, (s ∈ (broadcast stC1 "q" msgC1).repSends ∨
            s ∈ (broadcast stC1 "q" msgC1).subSends) →
        ∀ n, (s.target, n) ∈ stC1.replicant_id_to_name → n ≠ PyVal.pyStr "m:6747") := by
  refine ⟨by decide, ?_⟩
  apply broadcast_no_echo_to_origin
  · decide
  · decide
  · intro i n h c hc
    simp only [stC1, connR1, List.mem_singleton, Prod.mk.injEq] at h hc
    rw [hc.2]

/-! ### Claim C5: delivery scope of a broadcast -/

/-- The replicant connection that publishes in the C5 counterexample. -/
def connS : Conn := ⟨"S", "10.0.0.2", "r", [], [], true⟩

/-- A master broker whose only connection is the replicant `S`. -/
def stC5 : ServerState :=
  ⟨"m", 6747, [("S", connS)], [], [("S", PyVal.pyStr "r:6747")], [], none⟩

/-- A message sent by `S` (stamped `coremq_sender = "S"`) with a
`coremq_server` different from the declared name of `S`. -/
def msgC5 : Msg :=
  [("coremq_sender", PyVal.pyStr "S"), ("coremq_server", PyVal.pyStr "m:6747")]

/-- C5 counterexample.  The claim says no delivery of a broadcast ever
targets the connection named by `coremq_sender`; but when the sender is
itself a replicant connection (with a declared name different from the
message's `coremq_server`), the replicant fan-out step delivers right back
to it. -/
theorem broadcast_delivers_to_sender :
    msgC5.get? "coremq_sender" = some (.pyStr "S") ∧
      ((broadcast stC5 "q" msgC5).repSends.map Send.target) = ["S"] :=
  ⟨by decide, by decide⟩

/-- C5 (amended).  The *local-subscriber* step of a broadcast never delivers
to the connection named by `coremq_sender` (a replicant sender can still
receive through the replicant fan-out step), and it delivers to a connection
iff no exception aborted the fan-out, the connection is not a replicant, its
identifier differs from `coremq_sender`, and the published queue name is in
its subscription set. -/
theorem subscriber_step_fanout (st : ServerState) (queue S : String) (message : Msg)
    (hS : message.get? "coremq_sender" = some (.pyStr S)) :
    (∀ s ∈ (broadcast st queue message).subSends, s.target ≠ S) ∧
      (∀ (i q' : String) (m' : Msg),
        ((⟨i, q', m'⟩ : Send) ∈ (broadcast st queue message).subSends ↔
          ((broadcast st queue message).err = none ∧ q' = queue ∧
            m' = (broadcast st queue message).msg ∧ i ≠ S ∧
            ∃ c, (i, c) ∈ st.connections ∧ c.is_replicant = false ∧
              PyVal.pyStr queue ∈ c.subscriptions))) := by
  have hM : ((repLoop st queue st.replicant_id_to_name (upstreamMsg st message)).1).get?
      "coremq_sender" = some (.pyStr S) := by
    rw [repLoop_get? st queue _ (by decide), upstreamMsg_get? st message _ (by decide), hS]
  have hmsg : (broadcast st queue message).msg
      = (repLoop st queue st.replicant_id_to_name (upstreamMsg st message)).1 := rfl
  have herr : (broadcast st queue message).err
      = (repLoop st queue st.replicant_id_to_name (upstreamMsg st message)).2.2 := rfl
  have hsub : (broadcast st queue message).subSends
      = (if (repLoop st queue st.replicant_id_to_name (upstreamMsg st message)).2.2.isSome
          then []
          else subLoop queue
            (repLoop st queue st.replicant_id_to_name (upstreamMsg st message)).1
            st.connections) := rfl
  have hmain : ∀ (i q' : String) (m' : Msg),
      ((⟨i, q', m'⟩ : Send) ∈ (broadcast st queue message).subSends ↔
        ((broadcast st queue message).err = none ∧ q' = queue ∧
          m' = (broadcast st queue message).msg ∧ i ≠ S ∧
          ∃ c, (i, c) ∈ st.connections ∧ c.is_replicant = false ∧
            PyVal.pyStr queue ∈ c.subscriptions)) := by
    intro i q' m'
    rw [hsub, herr, hmsg]
    cases he : (repLoop st queue st.replicant_id_to_name (upstreamMsg st message)).2.2 with
    | some e =>
        simp
    | none =>
        rw [if_neg (by simp), subLoop_mem]
        constructor
        · rintro ⟨hq, hm, c, hc, hns, hnr, hsb⟩
          refine ⟨rfl, hq, hm, ?_, c, hc, hnr, hsb⟩
          intro hiS
          subst hiS
          exact hns hM
        · rintro ⟨_, hq, hm, hiS, c, hc, hnr, hsb⟩
          refine ⟨hq, hm, c, hc, ?_, hnr, hsb⟩
          rw [hM]
          intro hcontra
          simp only [Option.some.injEq, PyVal.pyStr.injEq] at hcontra
          exact hiS hcontra.symm
  refine ⟨?_, hmain⟩
  intro s hs
  obtain ⟨t, qs, ms⟩ := s
  obtain ⟨_, _, _, hne, _⟩ := (hmain t qs ms).mp hs
  exact hne

/-- An ordinary subscriber connection used by the C5 witness. -/
def connA : Conn := ⟨"A", "1.1.1.1", "a", [PyVal.pyStr "q1"], [], false⟩

/-- A broker with the single ordinary subscriber `A`, used by the C5 witness. -/
def stC5w : ServerState := ⟨"m", 6747, [("A", connA)], [], [], [], none⟩

/-- A message with `coremq_sender = "S"`, used by the C5 witness. -/
def msgC5w : Msg := [("coremq_sender", PyVal.pyStr "S")]

/-- Witness for C5 (amended) at a broker with one ordinary subscriber. -/
theorem subscriber_step_fanout_witness :
    msgC5w.get? "coremq_sender" = some (.pyStr "S") ∧
      ((∀ s ∈ (broadcast stC5w "q1" msgC5w).subSends, s.target ≠ "S") ∧
        (∀ (i q' : String) (m' : Msg),
          ((⟨i, q', m'⟩ : Send) ∈ (broadcast stC5w "q1" msgC5w).subSends ↔
            ((broadcast stC5w "q1" msgC5w).err = none ∧ q' = "q1" ∧
              m' = (broadcast stC5w "q1" msgC5w).msg ∧ i ≠ "S" ∧
              ∃ c, (i, c) ∈ stC5w.connections ∧ c.is_replicant = false ∧
                PyVal.pyStr "q1" ∈ c.subscriptions)))) :=
  ⟨by decide, subscriber_step_fanout stC5w "q1" "S" msgC5w (by decide)⟩

/-! ### Claim C3: history ring (a code bug: the store never runs) -/

theorem dequeAppend10_snoc (xs : List Msg) (x : Msg) :
    dequeAppend10 (xs.drop (xs.length - 10)) x
      = (xs ++ [x]).drop ((xs ++ [x]).length - 10) := by
  have hxlen : (xs ++ [x]).length = xs.length + 1 := by simp
  have hdlen : (xs.drop (xs.length - 10)).length = xs.length - (xs.length - 10) :=
    List.length_drop _ _
  unfold dequeAppend10
  by_cases hL : xs.length ≤ 9
  · have e1 : xs.length - 10 = 0 := by omega
    have e2 : (xs ++ [x]).length - 10 = 0 := by omega
    rw [if_neg (by rw [List.length_append, hdlen]; simp; omega), e1, e2,
      List.drop_zero, List.drop_zero]
  · have e3 : (xs.drop (xs.length - 10) ++ [x]).length = 11 := by
      rw [List.length_append, hdlen]
      simp
      omega
    rw [if_pos (by rw [e3]; omega), e3,
      show (11 : Nat) - 10 = 1 from rfl,
      List.drop_append_eq_append_drop, List.drop_append_eq_append_drop,
      List.drop_drop]
    have e4 : 1 - (xs.drop (xs.length - 10)).length = 0 := by rw [hdlen]; omega
    have e5 : (xs ++ [x]).length - 10 - xs.length = 0 := by rw [hxlen]; omega
    rw [e4, e5]
    have e6 : xs.length - 10 + 1 = (xs ++ [x]).length - 10 := by
      rw [hxlen]
      omega
    rw [e6]

/-- The intended ring semantics of `store_message`'s body: starting from no
history for `Q`, folding the body over `count` publishes leaves the last
`min(10, count)` messages, oldest to newest.  (The program never executes
this body; see `publish_stores_nothing`.) -/
theorem store_message_fold (h0 : List (String × List Msg)) (Q : String)
    (hQ : dictGet? h0 Q = none) :
    ∀ msgs : List Msg, msgs ≠ [] →
      dictGet? (msgs.foldl (fun h m => store_message h Q m) h0) Q
        = some (msgs.drop (msgs.length - 10)) := by
  intro msgs
  induction msgs using List.reverseRecOn with
  | nil => intro h; exact absurd rfl h
  | append_singleton xs x ih =>
      intro _
      rw [List.foldl_append, List.foldl_cons, List.foldl_nil]
      by_cases hxs : xs = []
      · subst hxs
        rw [List.foldl_nil, store_message, hQ]
        simp only [Option.getD_none]
        rw [dictGet?_dictSet_same]
        norm_num [dequeAppend10]
      · rw [store_message, ih hxs]
        simp only [Option.getD_some]
        rw [dictGet?_dictSet_same, dequeAppend10_snoc]

/-- C3 (code bug).  The claim's ring semantics is what `store_message`'s
body implements (proved above for the body as `store_message_fold`), but the
program never runs that body: `store_message` is an `@asyncio.coroutine`,
and its only call site — `self.store_message(queue, message)` in the publish
branch of `new_message` — lacks `yield asyncio.From(...)` (contrast the
properly yielded `self.broadcast(...)` on the next line), so the returned
coroutine is discarded un-iterated.  Consequently no dispatch ever writes
the broker history: `new_message` leaves `history` unchanged on every
branch, a publish at a fresh broker leaves it empty, and the subsequent
`coremq_gethistory` reply holds no entry for the published queue. -/
theorem publish_stores_nothing (st : ServerState) (selfC : Conn) (queue : String)
    (message : Msg) :
    (new_message st selfC queue message).st.history = st.history ∧
      ((new_message ⟨"m", 6747, [("U2", ⟨"U2", "8.8.8.8", "u2", [], [], false⟩)],
          [], [], [], none⟩ ⟨"U2", "8.8.8.8", "u2", [], [], false⟩ "q2"
          [("i", PyVal.pyInt 0)]).st.history = [] ∧
        get_history_result [] [PyVal.pyStr "q2"] = .ok []) := by
  constructor
  · simp only [new_message]
    split
    · split <;> rfl
    · split <;> rfl
    · split
      · rfl
      · split <;> rfl
    · split
      · rfl
      · split <;> rfl
    · simp only [begin_replication]
      split <;> rfl
    · rfl
    · split <;> rfl
  · exact ⟨by decide, by decide⟩

/-! ### Claim C6: reply suppression for replicated inbound frames -/

/-- C6.  For every inbound command frame whose message already carries
`coremq_server` (one received via replication), the dispatcher suppresses
the reply: no `{response: ...}` frame is emitted for any of the command
kinds subscribe, unsubscribe, options, get-history or status, nor for a
publish — every `respond` call in those paths passes `quiet = true` (the
`{history: ...}` and status frames are not `response` replies and are sent
regardless).  The replication handshake (`coremq_replicant`) is the one
dispatch branch outside this claim. -/
theorem replicated_inbound_quiet (st : ServerState) (selfC : Conn) (queue : String)
    (message : Msg)
    (hsrv : message.hasKey "coremq_server" = true)
    (hbr : dispatchBranch message ≠ Branch.replicant) :
    (new_message st selfC queue message).replies = [] := by
  unfold new_message
  simp only [hsrv, if_true]
  split
  · split <;> rfl
  · split <;> rfl
  · split
    · rfl
    · split <;> rfl
  · split
    · rfl
    · split <;> rfl
  · rename_i heq
    exact absurd heq hbr
  · rfl
  · split <;> rfl

/-- A registered, non-replicant connection for the C6 witness. -/
def connC6 : Conn := ⟨"U", "9.9.9.9", "u", [], [], false⟩

/-- A broker with the single connection `U`, used by the C6 witness. -/
def stC6 : ServerState := ⟨"m", 6747, [("U", connC6)], [], [], [], none⟩

/-- A replicated subscribe frame (it already carries `coremq_server`). -/
def msgC6 : Msg :=
  [("coremq_server", PyVal.pyStr "r:6747"),
   ("coremq_subscribe", PyVal.pyList [PyVal.pyStr "q1"])]

/-- Witness for C6 on a replicated subscribe frame. -/
theorem replicated_inbound_quiet_witness :
    (msgC6.hasKey "coremq_server" = true ∧ dispatchBranch msgC6 ≠ Branch.replicant) ∧
      (new_message stC6 connC6 "U" msgC6).replies = [] :=
  ⟨⟨by decide, by decide⟩,
    replicated_inbound_quiet stC6 connC6 "U" msgC6 (by decide) (by decide)⟩

/-! ### Claim C9: replication handshake -/

/-- A connection from a host absent from the allowed list, for the C9
counterexample. -/
def connEvil : Conn := ⟨"C", "203.0.113.5", "evil.example.com", [], [], false⟩

/-- A broker that only allows the replicant hostname "good". -/
def stC9 : ServerState := ⟨"m", 6747, [("C", connEvil)], ["good"], [], [], none⟩

/-- C9 counterexample.  The claim says a disallowed `coremq_replicant`
handshake is answered with `ERROR: Not allowed to be a replicant` *and the
connection is closed*; the code replies with the error but never closes the
connection (`begin_replication` has no `transport.close()` call on any
path). -/
theorem begin_replication_no_close :
    replicationAllowed stC9 connEvil = false ∧
      (begin_replication stC9 connEvil (.pyStr "evil:6747")).replies
        = [("C", "ERROR: Not allowed to be a replicant")] ∧
      (begin_replication stC9 connEvil (.pyStr "evil:6747")).closed = false ∧
      (begin_replication stC9 connEvil (.pyStr "evil:6747")).st = stC9 :=
  ⟨by decide, by decide, by decide, by decide⟩

/-- C9 (amended).  On a `coremq_replicant` handshake: if the peer's IP or
lowercased short hostname is in the (normalized) allowed-replicants list,
the broker records the connection-id to declared-name mapping (when the id
has no entry yet), sets `is_replicant`, and replies
`OK: Replication request successful`; otherwise it replies
`ERROR: Not allowed to be a replicant` and leaves the connection open and
the broker state unchanged. -/
theorem begin_replication_behavior (st : ServerState) (c : Conn) (name : PyVal) :
    (replicationAllowed st c = true →
      ((begin_replication st c name).conn.is_replicant = true ∧
        (begin_replication st c name).replies
          = [(c.uuid, "OK: Replication request successful")] ∧
        (dictGet? st.replicant_id_to_name c.uuid = none →
          dictGet? (begin_replication st c name).st.replicant_id_to_name c.uuid
            = some name) ∧
        (begin_replication st c name).closed = false)) ∧
      (replicationAllowed st c = false →
        begin_replication st c name
          = ⟨st, c, [(c.uuid, "ERROR: Not allowed to be a replicant")], false⟩) := by
  constructor
  · intro hall
    rw [begin_replication, if_pos hall]
    refine ⟨rfl, rfl, ?_, rfl⟩
    intro habs
    simp only [habs, Option.isSome_none, Bool.false_eq_true, if_false]
    exact dictGet?_dictSet_same _ _ _
  · intro hall
    rw [begin_replication, if_neg (by simp [hall])]

/-- An allowed replicant peer for the C9 witness. -/
def connGood : Conn := ⟨"G", "10.0.0.2", "GOOD.lan", [], [], false⟩

/-- A broker that allows the peer IP `10.0.0.2`, used by the C9 witness. -/
def stC9w : ServerState := ⟨"m", 6747, [("G", connGood)], ["good.lan:6747"], [], [], none⟩

/-- Witness for C9 (amended) on an allowed handshake. -/
theorem begin_replication_behavior_witness :
    replicationAllowed stC9w connGood = true ∧
      ((begin_replication stC9w connGood (.pyStr "g:6747")).conn.is_replicant = true ∧
        (begin_replication stC9w connGood (.pyStr "g:6747")).replies
          = [("G", "OK: Replication request successful")] ∧
        (dictGet? stC9w.replicant_id_to_name "G" = none →
          dictGet? (begin_replication stC9w connGood
              (.pyStr "g:6747")).st.replicant_id_to_name "G"
            = some (.pyStr "g:6747")) ∧
        (begin_replication stC9w connGood (.pyStr "g:6747")).closed = false) :=
  ⟨by decide,
    (begin_replication_behavior stC9w connGood (.pyStr "g:6747")).1 (by decide)⟩

/-! ### Claim C10: the sender identity cannot be forged -/

/-- C10.  For every frame parsed from a connection, the message handed to
the dispatcher has `coremq_sender` equal to the connection's server-minted
identifier, regardless of any `coremq_sender` (or `coremq_sent`) value the
client placed in the JSON; and two inbound messages that agree outside
those two keys produce extensionally equal dispatched messages. -/
theorem sender_not_forgeable (connId : String) (now : PyVal) (m1 m2 : Msg) :
    (stampInbound connId now m1).get? "coremq_sender" = some (.pyStr connId) ∧
      ((∀ k, k ≠ "coremq_sender" → k ≠ "coremq_sent" → m1.get? k = m2.get? k) →
        ∀ k, (stampInbound connId now m1).get? k
          = (stampInbound connId now m2).get? k) := by
  constructor
  · unfold stampInbound
    rw [Msg.get?_set_ne _ _ _ _ (by decide), Msg.get?_set_same]
  · intro h k
    unfold stampInbound
    by_cases hk2 : k = "coremq_sent"
    · subst hk2
      rw [Msg.get?_set_same, Msg.get?_set_same]
    · rw [Msg.get?_set_ne _ _ _ _ (fun h' => hk2 h'.symm),
        Msg.get?_set_ne _ _ _ _ (fun h' => hk2 h'.symm)]
      by_cases hk1 : k = "coremq_sender"
      · subst hk1
        rw [Msg.get?_set_same, Msg.get?_set_same]
      · rw [Msg.get?_set_ne _ _ _ _ (fun h' => hk1 h'.symm),
          Msg.get?_set_ne _ _ _ _ (fun h' => hk1 h'.symm)]
        exact h k hk1 hk2

/-- A frame whose client forged `coremq_sender = "evil"`. -/
def msgForgedA : Msg := [("a", PyVal.pyInt 1), ("coremq_sender", PyVal.pyStr "evil")]

/-- The same frame with a different forged `coremq_sender`. -/
def msgForgedB : Msg := [("a", PyVal.pyInt 1), ("coremq_sender", PyVal.pyStr "other")]

/-- Witness for C10 on two frames differing only in the forged sender. -/
theorem sender_not_forgeable_witness :
    (stampInbound "u" (PyVal.pyInt 5) msgForgedA).get? "coremq_sender"
        = some (.pyStr "u") ∧
      ∀ k, (stampInbound "u" (PyVal.pyInt 5) msgForgedA).get? k
        = (stampInbound "u" (PyVal.pyInt 5) msgForgedB).get? k := by
  refine ⟨(sender_not_forgeable "u" (PyVal.pyInt 5) msgForgedA msgForgedB).1, ?_⟩
  apply (sender_not_forgeable "u" (PyVal.pyInt 5) msgForgedA msgForgedB).2
  intro k h1 _
  have hs : ¬ ("coremq_sender" = k) := fun h => h1 h.symm
  show Msg.get? msgForgedA k = Msg.get? msgForgedB k
  by_cases ha : "a" = k
  · simp [msgForgedA, msgForgedB, Msg.get?, ha]
  · simp only [msgForgedA, msgForgedB, Msg.get?, if_neg ha, if_neg hs]

end CoreMQ
